import Mathlib

/-!
Shallow embedding of `src/traffic.js` (traffic-snoop): a batch job that
queries the Google Distance Matrix API for each (work, home) address pair
and records the results to a DynamoDB table.

Modelling conventions:
* JavaScript values that may be `undefined`/missing are `Option`s; a thrown
  `TypeError` (property access or indexing on `undefined`) is the
  `JsError.typeError` value of an `Except`; a thrown `new Error(msg)` is
  `JsError.error msg`.
* Time is a `Nat` of seconds since the epoch (the script uses
  `Math.round(+new Date() / 1000)`); luxon's
  `DateTime.local().setZone('UTC-4').toFormat('a')` is modelled by
  `meridiem`, a pure function of the second-of-day at the fixed UTC-4
  offset.  The other luxon format strings (`yyyy/MM/dd`, `ccc`, `t`) are
  calendar-table details of the external library and are passed in as a
  `LuxonFmt` parameter.
* The network is a parameter `net : String → Except JsError Response`
  mapping a request URL to how its `axios.get` promise settles:
  `Except.ok` a resolved response (transport status plus parsed body), or
  `Except.error` a rejected promise — a network failure or, under axios's
  default `validateStatus`, a non-2xx status.  `Promise.all` over the
  settled promises is `promiseAll`, which rejects as soon as any promise
  rejects.  `uuid/v1` is a parameter `gen : Nat → String` giving the
  identifier returned by its n-th call of the run.
-/

namespace TrafficSnoop

/-- JavaScript exceptions thrown by the script: `new Error(message)` for the
validation throws, and `typeError` for a property access or index on
`undefined`. -/
inductive JsError where
  | error (message : String)
  | typeError
deriving Repr, DecidableEq

/-- A `duration` object of a Distance Matrix response element; `text` is the
display string, `Option` because the field may be absent. -/
structure Duration where
  text : Option String
deriving Repr, DecidableEq

/-- An element of a response row; `duration` may be absent. -/
structure RouteElement where
  duration : Option Duration
deriving Repr, DecidableEq

/-- A row of a Distance Matrix response; the `elements` field may be absent
(`none` models `undefined`). -/
structure Row where
  elements : Option (List RouteElement)
deriving Repr, DecidableEq

/-- The parsed JSON body of a Distance Matrix response
(`response.data` in axios).  Every field may be absent. -/
structure RespData where
  status : Option String
  origin_addresses : Option (List String)
  destination_addresses : Option (List String)
  rows : Option (List Row)
deriving Repr, DecidableEq

/-- A resolved axios response: `status` is the transport-level HTTP status
code, `data` the parsed body (`none` when the body is absent or falsy). -/
structure Response where
  status : Nat
  data : Option RespData
deriving Repr, DecidableEq

/-- One collected result of `getResults` (`{origin, destination,
travelTime}` in the script).  The fields are `Option String` because the
script stores whatever the indexing expressions evaluate to, which can be
`undefined`. -/
structure RouteMeasurement where
  origin : Option String
  destination : Option String
  travelTime : Option String
deriving Repr, DecidableEq

/-- The `config.google` object — the API credential. -/
structure GoogleConfig where
  key : String
deriving Repr, DecidableEq

/-- The `config.aws` object — the storage table identifier. -/
structure AwsConfig where
  table : String
deriving Repr, DecidableEq

/-- The `config.locations` object — the two address lists. -/
structure LocationsConfig where
  work : List String
  home : List String
deriving Repr, DecidableEq

/-- The configuration object read from `config.json`. -/
structure Config where
  google : GoogleConfig
  aws : AwsConfig
  locations : LocationsConfig
deriving Repr, DecidableEq

/-! ### Time-of-day model (luxon at the fixed offset UTC-4) -/

/-- Second-of-day of the epoch instant `t` at the fixed offset UTC-4:
subtracting 4 hours is adding 72000 seconds modulo one day. -/
def localSecondsOfDay (t : Nat) : Nat :=
  (t + 72000) % 86400

/-- Hour-of-day (0..23) at UTC-4. -/
def localHour (t : Nat) : Nat :=
  localSecondsOfDay t / 3600

/-- Models `DateTime.local().setZone('UTC-4').toFormat('a').toLowerCase()`:
`"am"` strictly before noon at UTC-4, `"pm"` at or after noon. -/
def meridiem (t : Nat) : String :=
  if localHour t < 12 then "am" else "pm"

/-- The `direction` string computed in `getResults` (lines 75-82 of
`src/traffic.js`): `"work->home"` in the afternoon, else `"home->work"`. -/
def commuteDirection (t : Nat) : String :=
  if meridiem t == "pm" then "work->home" else "home->work"

/-! ### Request URL construction (`getDistanceRequest`, lines 28-51) -/

def GOOGLE_API_ENDPOINT : String :=
  "https://maps.googleapis.com/maps/api/distancematrix/json"

/-- The character class of the JavaScript regex `\\s`: tab, line feed,
vertical tab, form feed, carriage return, space, no-break space, ogham
space, the U+2000..U+200A spaces, line and paragraph separators, narrow
no-break space, medium mathematical space, ideographic space and the BOM. -/
def jsWhitespace (c : Char) : Bool :=
  c == ' ' || c == '\t' || c == '\n' || c.toNat == 0x0b || c.toNat == 0x0c ||
  c == '\r' || c.toNat == 0xa0 || c.toNat == 0x1680 ||
  (0x2000 ≤ c.toNat && c.toNat ≤ 0x200a) ||
  c.toNat == 0x2028 || c.toNat == 0x2029 || c.toNat == 0x202f ||
  c.toNat == 0x205f || c.toNat == 0x3000 || c.toNat == 0xfeff

/-- Models `s.replace(/\s/g, '+')`: every whitespace character becomes
`'+'`. -/
def plusEncode (s : String) : String :=
  String.mk (s.data.map (fun c => if jsWhitespace c then '+' else c))

/-- The IIFE of `getDistanceRequest` (lines 40-48): folds the parameter
list in insertion order into `?k=v&k=v&...`. -/
def buildQueryParams (params : List (String × String)) : String :=
  (params.foldl
    (fun (acc : Nat × String) kv =>
      (acc.1 + 1, acc.2 ++ (if acc.1 == 0 then "?" else "&") ++ kv.1 ++ "=" ++ kv.2))
    (0, "")).2

/-- The helper `getDistanceRequest(origin, destination)` (lines 28-51): the parameter
object is built with keys in insertion order `units`, `mode`, `key`,
`language`, `departure_time`, then `origins` and `destinations` are added
with whitespace replaced by `'+'`. -/
def getDistanceRequest (cfg : Config) (origin destination : String) : String :=
  let params : List (String × String) :=
    [("units", "imperial"),
     ("mode", "driving"),
     ("key", cfg.google.key),
     ("language", "en-EN"),
     ("departure_time", "now"),
     ("origins", plusEncode origin),
     ("destinations", plusEncode destination)]
  GOOGLE_API_ENDPOINT ++ buildQueryParams params

/-! ### Response filtering and extraction (`getResults`, lines 94-111) -/

/-- The acceptance condition of the `forEach` at lines 98-101:
`response.status === 200 && response.data && response.data.status === 'OK'
&& response.data.rows`.  Note that `response.data.rows` is a JavaScript
truthiness test: it only requires the field to be present (an empty array
is truthy). -/
def acceptResponse (r : Response) : Bool :=
  r.status == 200 &&
    (match r.data with
     | none => false
     | some d => d.status == some "OK" && d.rows.isSome)

/-- The extraction at lines 103-107.  Each `match` is one JavaScript
property access or index: indexing `undefined` or accessing a property of
`undefined` throws a `TypeError`, while indexing past the end of an array
yields `undefined` (`Option.none`) without throwing.  The extracted values
are `origin_addresses[0]`, `destination_addresses[0]` and
`rows[0].elements[0].duration.text`. -/
def extractMeasurement (d : RespData) : Except JsError RouteMeasurement :=
  match d.origin_addresses with
  | none => Except.error JsError.typeError
  | some oas =>
    match d.destination_addresses with
    | none => Except.error JsError.typeError
    | some das =>
      match d.rows with
      | none => Except.error JsError.typeError
      | some rows =>
        match rows.head? with
        | none => Except.error JsError.typeError
        | some row =>
          match row.elements with
          | none => Except.error JsError.typeError
          | some els =>
            match els.head? with
            | none => Except.error JsError.typeError
            | some el =>
              match el.duration with
              | none => Except.error JsError.typeError
              | some dur =>
                Except.ok
                  { origin := oas.head?,
                    destination := das.head?,
                    travelTime := dur.text }

/-- One iteration of the `forEach` at lines 97-109: an accepted response
pushes its extracted measurement onto the accumulator, any other response
is skipped; a `TypeError` thrown by the extraction aborts the whole
loop. -/
def processStep (acc : List RouteMeasurement) (r : Response) :
    Except JsError (List RouteMeasurement) :=
  match r.data with
  | none => Except.ok acc
  | some d =>
    if r.status == 200 && (d.status == some "OK" && d.rows.isSome) then
      (extractMeasurement d).map (fun m => acc ++ [m])
    else
      Except.ok acc

/-- The whole response-collection loop (lines 95-109), starting from the
empty `responses` array. -/
def processResponses (rs : List Response) : Except JsError (List RouteMeasurement) :=
  rs.foldlM processStep []

/-- The measurement a single response contributes when the loop does not
throw: `some` exactly for accepted responses whose extraction succeeds. -/
def respExtract (r : Response) : Option RouteMeasurement :=
  match r.data with
  | none => none
  | some d =>
    if r.status == 200 && (d.status == some "OK" && d.rows.isSome) then
      (extractMeasurement d).toOption
    else
      none

/-- Well-formedness of a response body: non-empty `origin_addresses`,
`destination_addresses` and `rows`, with `rows[0].elements` non-empty and
`rows[0].elements[0].duration.text` present.  Under this condition the
unguarded extraction cannot throw. -/
def wellFormedData (d : RespData) : Bool :=
  (match d.origin_addresses with
   | some (_ :: _) => true
   | _ => false) &&
  (match d.destination_addresses with
   | some (_ :: _) => true
   | _ => false) &&
  (match d.rows with
   | some (row :: _) =>
     (match row.elements with
      | some (el :: _) =>
        (match el.duration with
         | some dur => dur.text.isSome
         | none => false)
      | _ => false)
   | _ => false)

/-- Well-formedness of a whole response (vacuous when the body is
absent). -/
def responseWellFormed (r : Response) : Bool :=
  match r.data with
  | none => true
  | some d => wellFormedData d

/-- The error thrown at lines 61-64 when either address list is empty
(the second constructor argument of `new Error` is discarded by
JavaScript). -/
def configurationError : JsError :=
  JsError.error "Could not find location pair to measure."

/-- The error thrown at lines 68-71 when the cross-product exceeds 20. -/
def permutationLimitError : JsError :=
  JsError.error "Exceeded permutations limit."

/-- Models `Promise.all` over a list of settled promises: it resolves
with the list of values, in order, when every promise resolves, and
rejects as soon as any promise rejects (deterministically with the
leftmost rejection in this model; the source's `Promise.all` rejects with
the first rejection in time — either way `await` then throws). -/
def promiseAll {ε α : Type} : List (Except ε α) → Except ε (List α)
  | [] => Except.ok []
  | x :: xs =>
    match x with
    | Except.error e => Except.error e
    | Except.ok a => (promiseAll xs).map (fun as => a :: as)

/-- The function `getResults` (lines 54-112).  The first component is the
`queue` of request URLs handed to `axios.get` — the issued queries, built
before anything is awaited — and the second is what the `async` function
settles to: the collected measurements, or the error it throws.  `net`
maps each issued URL to how its `axios.get` promise settles; the
`await Promise.all(queue)` at line 97 rethrows any rejection, so one
rejected query aborts the whole batch before the collection loop runs. -/
def getResults (cfg : Config) (now : Nat) (net : String → Except JsError Response) :
    List String × Except JsError (List RouteMeasurement) :=
  if cfg.locations.work.length == 0 || cfg.locations.home.length == 0 then
    ([], Except.error configurationError)
  else if 20 < cfg.locations.work.length * cfg.locations.home.length then
    ([], Except.error permutationLimitError)
  else
    let originKey : String := if meridiem now == "pm" then "work" else "home"
    let queue : List String :=
      cfg.locations.work.foldl
        (fun q workAddress =>
          cfg.locations.home.foldl
            (fun q homeAddress =>
              q ++ [if originKey == "home" then
                      getDistanceRequest cfg homeAddress workAddress
                    else
                      getDistanceRequest cfg workAddress homeAddress]) q)
        []
    (queue, (promiseAll (queue.map net)) >>= processResponses)

/-! ### Result writing (`writeResults`, lines 115-160) -/

/-- Results of the luxon `toFormat` calls of `writeResults` other than the
meridiem: the `yyyy/MM/dd` date, the `ccc` day and the `t` time renderings
of an epoch instant at UTC-4.  These calendar tables live in the external
library, so they are a parameter of the model. -/
structure LuxonFmt where
  dateFmt : Nat → String
  dayFmt : Nat → String
  timeFmt : Nat → String

/-- One DynamoDB item of the batch (lines 130-144); all attributes are
strings except `timestamp`, a numeric attribute carried as its decimal
string. -/
structure CommuteItem where
  uuid : String
  origin : Option String
  destination : Option String
  travelTime : Option String
  commute : String
  date : String
  day : String
  time : String
  timestamp : String
deriving Repr, DecidableEq

/-- One `ddb.batchWriteItem` call: the table name it is keyed by and the
put items it carries. -/
structure BatchWriteCall where
  table : String
  items : List CommuteItem
deriving Repr, DecidableEq

/-- The observable outcome of `writeResults`: the batch-write calls made
and the console lines produced by the completion callback. -/
structure WriteOutput where
  calls : List BatchWriteCall
  logs : List String
deriving Repr, DecidableEq

/-- The function `writeResults` (lines 115-160).  `now` is the epoch
second of the run, `gen n` the value of the n-th `uuidv1()` call, `fmt`
the luxon calendar renderings, `outcome` how the DynamoDB bulk write
settles and `isL` the `is-lambda` flag.  The function makes exactly one
`batchWriteItem` call carrying one item per measurement; the callback at
lines 152-159 logs the error on failure, logs a confirmation on success
only outside Lambda, and never rethrows. -/
def writeResults (results : List RouteMeasurement) (cfg : Config) (now : Nat)
    (gen : Nat → String) (fmt : LuxonFmt) (outcome : Except String Unit)
    (isL : Bool) : WriteOutput :=
  let timestamp := toString now
  let dateFormat := fmt.dateFmt now
  let dayFormat := fmt.dayFmt now
  let timeFormat := fmt.timeFmt now
  let commuteLabel := if meridiem now == "am" then "home -> work" else "work -> home"
  let requestItems : List CommuteItem :=
    results.mapIdx (fun i result =>
      { uuid := gen i,
        origin := result.origin,
        destination := result.destination,
        travelTime := result.travelTime,
        commute := commuteLabel,
        date := dateFormat,
        day := dayFormat,
        time := timeFormat,
        timestamp := timestamp })
  { calls := [{ table := cfg.aws.table, items := requestItems }],
    logs :=
      match outcome with
      | Except.error e => ["Batch write error: " ++ e]
      | Except.ok _ => if isL then [] else ["Batch write was successful."] }

/-! ### Helper lemmas -/

lemma exceptBind_ok {ε α β : Type} (a : α) (f : α → Except ε β) :
    (Except.ok a >>= f : Except ε β) = f a := rfl

lemma exceptBind_error {ε α β : Type} (e : ε) (f : α → Except ε β) :
    ((Except.error e : Except ε α) >>= f) = Except.error e := rfl

/-- A response that fails the acceptance condition is skipped without
touching the accumulator and without throwing. -/
lemma processStep_skip (r : Response) (h : acceptResponse r = false)
    (acc : List RouteMeasurement) : processStep acc r = Except.ok acc := by
  unfold processStep
  cases hd : r.data with
  | none => rfl
  | some d =>
    have h' : (r.status == 200 && (d.status == some "OK" && d.rows.isSome)) = false := by
      unfold acceptResponse at h
      rw [hd] at h
      exact h
    simp [h']

/-- A well-formed body extracts, and to exactly the first normalized
origin address, the first normalized destination address and the first
route's duration text. -/
lemma extractMeasurement_wf (d : RespData) (h : wellFormedData d = true) :
    extractMeasurement d = Except.ok
      { origin := d.origin_addresses.bind List.head?,
        destination := d.destination_addresses.bind List.head?,
        travelTime := (d.rows.bind List.head?).bind
          (fun row => (row.elements.bind List.head?).bind
            (fun el => el.duration.bind Duration.text)) } := by
  rcases d with ⟨st, oa, da, rws⟩
  rcases oa with _ | (_ | ⟨o, os⟩) <;>
    rcases da with _ | (_ | ⟨d0, ds⟩) <;>
      rcases rws with _ | (_ | ⟨⟨els⟩, rows'⟩) <;>
        simp_all [wellFormedData, extractMeasurement]
  rcases els with _ | (_ | ⟨⟨duro⟩, els'⟩) <;> simp_all
  rcases duro with _ | ⟨txt⟩ <;> simp_all [extractMeasurement]

/-- Unfolding of `respExtract` on an accepted response. -/
lemma respExtract_accepted (r : Response) (d : RespData) (hd : r.data = some d)
    (hacc : acceptResponse r = true) :
    respExtract r = (extractMeasurement d).toOption := by
  have h' : (r.status == 200 && (d.status == some "OK" && d.rows.isSome)) = true := by
    unfold acceptResponse at hacc
    rw [hd] at hacc
    exact hacc
  unfold respExtract
  rw [hd]
  simp [h']

/-- Unfolding of `processStep` on an accepted response. -/
lemma processStep_accepted (r : Response) (d : RespData) (hd : r.data = some d)
    (hacc : acceptResponse r = true) (acc : List RouteMeasurement) :
    processStep acc r = (extractMeasurement d).map (fun m => acc ++ [m]) := by
  have h' : (r.status == 200 && (d.status == some "OK" && d.rows.isSome)) = true := by
    unfold acceptResponse at hacc
    rw [hd] at hacc
    exact hacc
  unfold processStep
  rw [hd]
  simp [h']

/-- A rejected response contributes nothing. -/
lemma respExtract_rejected (r : Response) (h : acceptResponse r = false) :
    respExtract r = none := by
  unfold respExtract
  cases hd : r.data with
  | none => rfl
  | some d =>
    have h' : (r.status == 200 && (d.status == some "OK" && d.rows.isSome)) = false := by
      unfold acceptResponse at h
      rw [hd] at h
      exact h
    simp [h']

/-- When every accepted response of the batch is well-formed, the
collection loop never throws and collects exactly the accepted
measurements, in order, onto the running accumulator. -/
lemma foldlM_processStep_wf (rs : List Response)
    (h : ∀ r ∈ rs, acceptResponse r = true → responseWellFormed r = true) :
    ∀ acc, rs.foldlM processStep acc = Except.ok (acc ++ rs.filterMap respExtract) := by
  induction rs with
  | nil =>
    intro acc
    rw [List.foldlM_nil, List.filterMap_nil, List.append_nil]
    rfl
  | cons r rest ih =>
    intro acc
    have hrest : ∀ x ∈ rest, acceptResponse x = true → responseWellFormed x = true :=
      fun x hx => h x (List.mem_cons_of_mem _ hx)
    rw [List.foldlM_cons]
    cases hacc : acceptResponse r with
    | false =>
      rw [processStep_skip r hacc acc, exceptBind_ok, List.filterMap_cons,
        respExtract_rejected r hacc]
      exact ih hrest acc
    | true =>
      have hd : ∃ d, r.data = some d := by
        unfold acceptResponse at hacc
        cases hd' : r.data with
        | none => rw [hd'] at hacc; simp at hacc
        | some d => exact ⟨d, rfl⟩
      obtain ⟨d, hd⟩ := hd
      have hwf : wellFormedData d = true := by
        have := h r (List.mem_cons_self r rest) hacc
        unfold responseWellFormed at this
        rwa [hd] at this
      rw [processStep_accepted r d hd hacc acc, extractMeasurement_wf d hwf]
      rw [List.filterMap_cons, respExtract_accepted r d hd hacc,
        extractMeasurement_wf d hwf]
      simp only [Except.map, Except.toOption, exceptBind_ok]
      rw [ih hrest]
      simp

/-- If the collection loop returns normally, its result is exactly the
in-order accepted measurements appended to the starting accumulator. -/
lemma foldlM_processStep_ok (rs : List Response) :
    ∀ acc ms, rs.foldlM processStep acc = Except.ok ms →
      ms = acc ++ rs.filterMap respExtract := by
  induction rs with
  | nil =>
    intro acc ms h
    rw [List.foldlM_nil] at h
    cases h
    simp
  | cons r rest ih =>
    intro acc ms h
    rw [List.foldlM_cons] at h
    cases hacc : acceptResponse r with
    | false =>
      rw [processStep_skip r hacc acc, exceptBind_ok] at h
      rw [List.filterMap_cons, respExtract_rejected r hacc]
      exact ih acc ms h
    | true =>
      have hd : ∃ d, r.data = some d := by
        unfold acceptResponse at hacc
        cases hd' : r.data with
        | none => rw [hd'] at hacc; simp at hacc
        | some d => exact ⟨d, rfl⟩
      obtain ⟨d, hd⟩ := hd
      rw [processStep_accepted r d hd hacc acc] at h
      cases hex : extractMeasurement d with
      | error e =>
        rw [hex] at h
        simp only [Except.map, exceptBind_error] at h
        exact absurd h (by simp)
      | ok m =>
        rw [hex] at h
        simp only [Except.map, exceptBind_ok] at h
        rw [List.filterMap_cons, respExtract_accepted r d hd hacc, hex]
        simp only [Except.toOption]
        have := ih (acc ++ [m]) ms h
        simp only [this, List.append_assoc, List.singleton_append]

/-- Dropping a rejected response anywhere in the batch does not change
what the loop produces. -/
lemma foldlM_processStep_drop (r : Response) (h : acceptResponse r = false)
    (pre post : List Response) :
    ∀ acc, (pre ++ r :: post).foldlM processStep acc =
      (pre ++ post).foldlM processStep acc := by
  induction pre with
  | nil =>
    intro acc
    simp only [List.nil_append, List.foldlM_cons]
    rw [processStep_skip r h acc, exceptBind_ok]
  | cons p pre' ih =>
    intro acc
    simp only [List.cons_append, List.foldlM_cons]
    cases hstep : processStep acc p with
    | error e => rfl
    | ok acc' => exact ih acc'

/-- Folding `push` over a list appends the mapped elements in order. -/
lemma foldl_push_map {α β : Type} (g : α → β) (l : List α) (q : List β) :
    l.foldl (fun acc x => acc ++ [g x]) q = q ++ l.map g := by
  induction l generalizing q with
  | nil => simp
  | cons a t ih => simp [List.foldl_cons, ih]

/-- Folding list-append over a list concatenates the pieces in order. -/
lemma foldl_append_flatMap {α β : Type} (f : α → List β) (l : List α) (q : List β) :
    l.foldl (fun acc x => acc ++ f x) q = q ++ l.flatMap f := by
  induction l generalizing q with
  | nil => simp
  | cons a t ih => simp [List.foldl_cons, ih, List.flatMap_cons]

/-- The request queue `getResults` builds when validation passes: outer
loop over the work list, inner loop over the home list; in the morning
the home address is the origin, in the afternoon the work address is. -/
def queueSpec (cfg : Config) (now : Nat) : List String :=
  cfg.locations.work.flatMap (fun workAddress =>
    cfg.locations.home.map (fun homeAddress =>
      if meridiem now == "pm" then getDistanceRequest cfg workAddress homeAddress
      else getDistanceRequest cfg homeAddress workAddress))

/-- Fused form of the two nested `forEach` pushes of lines 86-92. -/
lemma nested_foldl_flatMap {α β γ : Type} (xs : List α) (ys : List β) (g : α → β → γ) :
    xs.foldl (fun q x => ys.foldl (fun q y => q ++ [g x y]) q) [] =
    xs.flatMap (fun x => ys.map (g x)) := by
  have h : (fun (q : List γ) x => ys.foldl (fun q y => q ++ [g x y]) q) =
      (fun (q : List γ) x => q ++ ys.map (g x)) := by
    funext q x
    exact foldl_push_map (g x) ys q
  rw [h]
  simpa using foldl_append_flatMap (fun x => ys.map (g x)) xs []

/-- The queue built by the nested loops equals `queueSpec`. -/
lemma queue_fold_eq (cfg : Config) (now : Nat) :
    cfg.locations.work.foldl
      (fun q workAddress =>
        cfg.locations.home.foldl
          (fun q homeAddress =>
            q ++ [if (if meridiem now == "pm" then "work" else "home") == "home" then
                    getDistanceRequest cfg homeAddress workAddress
                  else
                    getDistanceRequest cfg workAddress homeAddress]) q)
      [] = queueSpec cfg now := by
  unfold queueSpec
  cases hm : meridiem now == "pm" with
  | true => exact nested_foldl_flatMap _ _ _
  | false => exact nested_foldl_flatMap _ _ _

/-- Characterization of `getResults` when validation passes: the issued
queue is `queueSpec`, the queries are awaited together, and the result is
the collection loop run over the resolved responses of that queue, in
order — unless some promise rejected, in which case the rejection is
rethrown. -/
lemma getResults_run (cfg : Config) (now : Nat) (net : String → Except JsError Response)
    (hw : cfg.locations.work ≠ []) (hh : cfg.locations.home ≠ [])
    (hlim : cfg.locations.work.length * cfg.locations.home.length ≤ 20) :
    getResults cfg now net =
      (queueSpec cfg now,
        (promiseAll ((queueSpec cfg now).map net)) >>= processResponses) := by
  have h2 : ¬ 20 < cfg.locations.work.length * cfg.locations.home.length :=
    Nat.not_lt.mpr hlim
  unfold getResults
  rw [if_neg (by simp [List.length_eq_zero, hw, hh]), if_neg h2]
  exact congrArg (fun q => (q, (promiseAll (q.map net)) >>= processResponses))
    (queue_fold_eq cfg now)

/-- A batch containing a rejected promise makes `Promise.all` reject. -/
lemma promiseAll_error_of_mem {ε α : Type} (l : List (Except ε α)) (e : ε)
    (h : Except.error e ∈ l) : ∃ e', promiseAll l = Except.error e' := by
  induction l with
  | nil => cases h
  | cons x xs ih =>
    cases x with
    | error e0 => exact ⟨e0, rfl⟩
    | ok a =>
      rcases List.mem_cons.mp h with hx | hx
      · simp at hx
      · obtain ⟨e', he'⟩ := ih hx
        refine ⟨e', ?_⟩
        show (promiseAll xs).map _ = Except.error e'
        rw [he']
        rfl

/-- A response that contributes a measurement was accepted. -/
lemma respExtract_isSome_accept (r : Response) (h : (respExtract r).isSome = true) :
    acceptResponse r = true := by
  unfold respExtract at h
  cases hd : r.data with
  | none => rw [hd] at h; simp at h
  | some d =>
    rw [hd] at h
    by_cases hc : (r.status == 200 && (d.status == some "OK" && d.rows.isSome)) = true
    · unfold acceptResponse
      rw [hd]
      exact hc
    · have h' : (if (r.status == 200 && (d.status == some "OK" && d.rows.isSome)) = true
          then (extractMeasurement d).toOption else none).isSome = true := h
      rw [if_neg hc] at h'
      simp at h'

/-- The meridiem is always `"am"` or `"pm"`. -/
lemma meridiem_cases (t : Nat) : meridiem t = "am" ∨ meridiem t = "pm" := by
  unfold meridiem
  by_cases h : localHour t < 12
  · exact Or.inl (if_pos h)
  · exact Or.inr (if_neg h)

/-- A flat map of constant-length blocks has the product length. -/
lemma length_flatMap_const {α β : Type} (l : List α) (f : α → List β) (k : Nat)
    (h : ∀ x ∈ l, (f x).length = k) : (l.flatMap f).length = l.length * k := by
  induction l with
  | nil => simp
  | cons a t ih =>
    rw [List.flatMap_cons, List.length_append, h a (List.mem_cons_self a t),
      ih (fun x hx => h x (List.mem_cons_of_mem a hx)), List.length_cons,
      Nat.succ_mul, Nat.add_comm]

/-! ### Shared concrete examples (used by witnesses and counterexamples) -/

/-- A 1x1 example configuration. -/
def cfgEx : Config :=
  { google := { key := "KEY" },
    aws := { table := "commutes" },
    locations := { work := ["1 Work Plaza"], home := ["123 Main St"] } }

/-- A configuration whose home list is empty. -/
def cfgEmptyHome : Config :=
  { google := { key := "KEY" },
    aws := { table := "commutes" },
    locations := { work := ["1 Work Plaza"], home := [] } }

/-- A 5x5 configuration: 25 pairs, over the permutation ceiling. -/
def cfgTooBig : Config :=
  { google := { key := "KEY" },
    aws := { table := "commutes" },
    locations :=
      { work := ["w1", "w2", "w3", "w4", "w5"],
        home := ["h1", "h2", "h3", "h4", "h5"] } }

/-- A fully well-formed successful response. -/
def respGood : Response :=
  { status := 200,
    data := some
      { status := some "OK",
        origin_addresses := some ["123 Main St, Springfield"],
        destination_addresses := some ["1 Work Plaza, Springfield"],
        rows := some
          [{ elements := some [{ duration := some { text := some "15 mins" } }] }] } }

/-- A second well-formed successful response with different contents. -/
def respGood2 : Response :=
  { status := 200,
    data := some
      { status := some "OK",
        origin_addresses := some ["9 Oak Ave, Springfield"],
        destination_addresses := some ["1 Work Plaza, Springfield"],
        rows := some
          [{ elements := some [{ duration := some { text := some "22 mins" } }] }] } }

/-- A response whose body status is not `"OK"`. -/
def respOverLimit : Response :=
  { status := 200,
    data := some
      { status := some "OVER_QUERY_LIMIT",
        origin_addresses := some [],
        destination_addresses := some [],
        rows := none } }

/-- A response with body status `"OK"` whose `rows` field is present but
an empty array: truthy in JavaScript, so the filter accepts it, and the
unguarded `rows[0].elements` access then throws. -/
def respRowsEmpty : Response :=
  { status := 200,
    data := some
      { status := some "OK",
        origin_addresses := some ["A St"],
        destination_addresses := some ["B St"],
        rows := some [] } }

/-- The measurement `respGood` contributes. -/
def measGood : RouteMeasurement :=
  { origin := some "123 Main St, Springfield",
    destination := some "1 Work Plaza, Springfield",
    travelTime := some "15 mins" }

/-- A network in which every query resolves with `respGood`. -/
def netGood : String → Except JsError Response := fun _ => Except.ok respGood

/-- The error a rejected request promise carries. -/
def rejectionError : JsError := JsError.error "Network Error"

/-- A network in which every query promise rejects. -/
def netFail : String → Except JsError Response := fun _ => Except.error rejectionError

/-- A 2x1 configuration, for batches with two queries. -/
def cfgTwo : Config :=
  { google := { key := "KEY" },
    aws := { table := "commutes" },
    locations := { work := ["w1", "w2"], home := ["123 Main St"] } }

/-- A network in which the first query of `cfgTwo`'s afternoon batch
rejects at the transport level and every other query resolves with
`respGood`. -/
def netOneReject : String → Except JsError Response := fun url =>
  if url == getDistanceRequest cfgTwo "w1" "123 Main St" then Except.error rejectionError
  else Except.ok respGood

/-- An injective identifier generator for witnesses. -/
def genEx : Nat → String := fun n => String.mk (List.replicate n 'a')

/-- Fixed calendar renderings for witnesses. -/
def fmtEx : LuxonFmt :=
  { dateFmt := fun _ => "2018/01/01", dayFmt := fun _ => "Mon", timeFmt := fun _ => "9:00 AM" }

lemma genEx_injective : Function.Injective genEx := by
  intro a b h
  have := congrArg (fun s => s.data.length) h
  simpa [genEx] using this

/-! ### Claims -/

set_option maxRecDepth 20000 in
/-- C1 counterexample: the claim says a transport-level failure of a
single query is silently dropped and does not abort the siblings.  In the
source, a transport failure is a rejected `axios.get` promise, and
`await Promise.all(queue)` at line 97 rethrows it: on `cfgTwo`'s
two-query batch, where the first query rejects and the second resolves to
`respGood` (whose successful measurement would be `measGood`), the whole
run throws the rejection instead of returning the sibling's result. -/
theorem fetch_partial_failure_counterexample :
    respExtract respGood = some measGood ∧
    netOneReject (getDistanceRequest cfgTwo "w2" "123 Main St") = Except.ok respGood ∧
    (getResults cfgTwo 0 netOneReject).2 = Except.error rejectionError := by
  refine ⟨rfl, ?_, ?_⟩ <;> rfl

/-- C1 (amended): a single query whose promise resolves but whose
response fails the acceptance checks (non-success transport status on a
resolved response, non-"OK" body status, or missing `rows`) is silently
dropped from the output, is not retried, and does not abort the sibling
queries; but a query whose promise rejects — a transport-level failure
under axios's default behaviour — makes `await Promise.all` throw,
aborting the whole batch and discarding every sibling's result. -/
theorem fetch_partial_failure_amended (pre post : List Response) (r : Response)
    (h : acceptResponse r = false) (cfg : Config) (now : Nat)
    (net : String → Except JsError Response)
    (hw : cfg.locations.work ≠ []) (hh : cfg.locations.home ≠ [])
    (hlim : cfg.locations.work.length * cfg.locations.home.length ≤ 20)
    (e : JsError) (hrej : Except.error e ∈ (getResults cfg now net).1.map net) :
    processResponses (pre ++ r :: post) = processResponses (pre ++ post) ∧
    ((getResults cfg now net).2).isOk = false := by
  constructor
  · exact foldlM_processStep_drop r h pre post []
  · have hrej' : Except.error e ∈ (queueSpec cfg now).map net := by
      rw [getResults_run cfg now net hw hh hlim] at hrej
      exact hrej
    obtain ⟨e', he'⟩ := promiseAll_error_of_mem _ e hrej'
    rw [getResults_run cfg now net hw hh hlim]
    show ((promiseAll ((queueSpec cfg now).map net)) >>= processResponses).isOk = false
    rw [he']
    rfl

set_option maxRecDepth 20000 in
theorem fetch_partial_failure_amended_witness :
    processResponses ([respGood] ++ respOverLimit :: [respGood2]) =
      processResponses ([respGood] ++ [respGood2]) ∧
    ((getResults cfgTwo 0 netOneReject).2).isOk = false :=
  fetch_partial_failure_amended [respGood] [respGood2] respOverLimit (by decide)
    cfgTwo 0 netOneReject (by decide) (by decide) (by decide) rejectionError
    (by show Except.error rejectionError ∈ [Except.error rejectionError, Except.ok respGood]
        exact List.Mem.head _)

/-- C2 counterexample: the claim says a response contributes a measurement
only if a non-empty `rows` field is present, and that siblings are
unaffected by a rejected response.  But the filter only tests the presence
of `rows`: `respRowsEmpty`, whose `rows` is present but empty, is
accepted, and the unguarded `rows[0].elements` access then throws a
`TypeError` that destroys the whole batch, including the sibling
`respGood`'s result. -/
theorem fetch_acceptance_counterexample :
    acceptResponse respRowsEmpty = true ∧
    processResponses [respGood, respRowsEmpty] = Except.error JsError.typeError :=
  ⟨by decide, by rfl⟩

/-- C2 (amended): a response contributes a measurement iff the transport
status is 200, the body is present with status "OK" and the `rows` field
is present (truthiness, not non-emptiness); provided every accepted
response is well-formed, the loop returns all contributions in order, and
each contribution is exactly the API's first normalized origin address,
first normalized destination address and first route's duration display
text. -/
theorem fetch_acceptance_amended (rs : List Response)
    (hwf : ∀ r ∈ rs, acceptResponse r = true → responseWellFormed r = true) :
    processResponses rs = Except.ok (rs.filterMap respExtract) ∧
    (∀ r ∈ rs, ((respExtract r).isSome = true ↔ acceptResponse r = true)) ∧
    (∀ r ∈ rs, ∀ d, r.data = some d → ∀ m, respExtract r = some m →
      m.origin = d.origin_addresses.bind List.head? ∧
      m.destination = d.destination_addresses.bind List.head? ∧
      m.travelTime = (d.rows.bind List.head?).bind
        (fun row => (row.elements.bind List.head?).bind
          (fun el => el.duration.bind Duration.text))) := by
  refine ⟨?_, ?_, ?_⟩
  · simpa using foldlM_processStep_wf rs hwf []
  · intro r hr
    constructor
    · exact respExtract_isSome_accept r
    · intro hacc
      obtain ⟨d, hd⟩ : ∃ d, r.data = some d := by
        unfold acceptResponse at hacc
        cases hd' : r.data with
        | none => rw [hd'] at hacc; simp at hacc
        | some d => exact ⟨d, rfl⟩
      have hwfd : wellFormedData d = true := by
        have hx := hwf r hr hacc
        unfold responseWellFormed at hx
        rwa [hd] at hx
      rw [respExtract_accepted r d hd hacc, extractMeasurement_wf d hwfd]
      rfl
  · intro r hr d hd m hm
    have hacc : acceptResponse r = true :=
      respExtract_isSome_accept r (by rw [hm]; rfl)
    have hwfd : wellFormedData d = true := by
      have hx := hwf r hr hacc
      unfold responseWellFormed at hx
      rwa [hd] at hx
    rw [respExtract_accepted r d hd hacc, extractMeasurement_wf d hwfd] at hm
    have hm' := Option.some.inj hm
    rw [← hm']
    exact ⟨rfl, rfl, rfl⟩

theorem fetch_acceptance_amended_witness :
    processResponses [respGood] = Except.ok ([respGood].filterMap respExtract) :=
  (fetch_acceptance_amended [respGood] (by decide)).1

/-- C10: the acceptance filter tests only the presence (truthiness) of
`rows` — the present-but-empty `respRowsEmpty` is accepted — and the
unguarded extraction then throws; extraction over a batch is total when
every accepted response has non-empty `origin_addresses`,
`destination_addresses` and `rows`, with `rows[0].elements` non-empty and
a `duration.text` present. -/
theorem fetch_extraction_precondition (rs : List Response)
    (hwf : ∀ r ∈ rs, acceptResponse r = true → responseWellFormed r = true) :
    acceptResponse respRowsEmpty = true ∧
    processResponses [respRowsEmpty] = Except.error JsError.typeError ∧
    processResponses rs = Except.ok (rs.filterMap respExtract) := by
  refine ⟨by decide, by rfl, ?_⟩
  simpa using foldlM_processStep_wf rs hwf []

theorem fetch_extraction_precondition_witness :
    acceptResponse respRowsEmpty = true ∧
    processResponses [respRowsEmpty] = Except.error JsError.typeError ∧
    processResponses [respGood2] = Except.ok ([respGood2].filterMap respExtract) :=
  fetch_extraction_precondition [respGood2] (by decide)

/-- C3: for non-empty home and work lists whose cross-product is at most
20, `getResults` issues exactly `|home| * |work|` queries, one per
(work, home) pair, and the issued queue does not depend on how any query
promise settles (it is built before anything is awaited). -/
theorem fetch_issues_all_queries (cfg : Config) (now : Nat)
    (net net' : String → Except JsError Response)
    (hw : cfg.locations.work ≠ []) (hh : cfg.locations.home ≠ [])
    (hlim : cfg.locations.work.length * cfg.locations.home.length ≤ 20) :
    (getResults cfg now net).1.length =
      cfg.locations.home.length * cfg.locations.work.length ∧
    (getResults cfg now net).1 = queueSpec cfg now ∧
    (getResults cfg now net).1 = (getResults cfg now net').1 := by
  refine ⟨?_, ?_, ?_⟩
  · rw [getResults_run cfg now net hw hh hlim]
    show (queueSpec cfg now).length = _
    unfold queueSpec
    rw [length_flatMap_const _ _ cfg.locations.home.length
      (fun x _ => List.length_map _ _)]
    exact Nat.mul_comm _ _
  · rw [getResults_run cfg now net hw hh hlim]
  · rw [getResults_run cfg now net hw hh hlim, getResults_run cfg now net' hw hh hlim]

theorem fetch_issues_all_queries_witness :
    (getResults cfgEx 0 netGood).1.length =
      cfgEx.locations.home.length * cfgEx.locations.work.length ∧
    (getResults cfgEx 0 netGood).1 = queueSpec cfgEx 0 ∧
    (getResults cfgEx 0 netGood).1 = (getResults cfgEx 0 netFail).1 :=
  fetch_issues_all_queries cfgEx 0 netGood netFail (by decide) (by decide) (by decide)

/-- C4: `getResults` throws the configuration error whenever either
address list is empty, and the permutation-limit error whenever the
cross-product exceeds 20; in both cases the issued queue is empty — it
fails before issuing any query. -/
theorem fetch_validation_errors (cfg : Config) (now : Nat)
    (net : String → Except JsError Response) :
    (cfg.locations.work = [] ∨ cfg.locations.home = [] →
      getResults cfg now net = ([], Except.error configurationError)) ∧
    (20 < cfg.locations.work.length * cfg.locations.home.length →
      getResults cfg now net = ([], Except.error permutationLimitError)) := by
  constructor
  · intro h
    have hcond : (cfg.locations.work.length == 0 || cfg.locations.home.length == 0) = true := by
      rcases h with h | h <;> simp [h]
    unfold getResults
    rw [if_pos hcond]
  · intro h
    have hw0 : cfg.locations.work.length ≠ 0 := by
      intro h0
      rw [h0] at h
      simp at h
    have hh0 : cfg.locations.home.length ≠ 0 := by
      intro h0
      rw [h0] at h
      simp at h
    unfold getResults
    rw [if_neg (by simp [hw0, hh0]), if_pos h]

theorem fetch_validation_errors_witness :
    getResults cfgEmptyHome 0 netGood = ([], Except.error configurationError) ∧
    getResults cfgTooBig 0 netGood = ([], Except.error permutationLimitError) :=
  ⟨(fetch_validation_errors cfgEmptyHome 0 netGood).1 (Or.inr rfl),
   (fetch_validation_errors cfgTooBig 0 netGood).2 (by decide)⟩

/-- C5: the issued queue is built by an outer loop over the work list and
an inner loop over the home list; when the run's direction is home->work
the origin is the home address and the destination the work address,
otherwise the other way round; and whatever list the run returns is the
accepted results of the resolved responses — which `Promise.all` delivers
in queue order — in exactly that construction order. -/
theorem fetch_query_order (cfg : Config) (now : Nat)
    (net : String → Except JsError Response)
    (hw : cfg.locations.work ≠ []) (hh : cfg.locations.home ≠ [])
    (hlim : cfg.locations.work.length * cfg.locations.home.length ≤ 20) :
    (getResults cfg now net).1 =
      cfg.locations.work.flatMap (fun workAddress =>
        cfg.locations.home.map (fun homeAddress =>
          if commuteDirection now == "home->work" then
            getDistanceRequest cfg homeAddress workAddress
          else
            getDistanceRequest cfg workAddress homeAddress)) ∧
    ∀ rs ms, promiseAll ((getResults cfg now net).1.map net) = Except.ok rs →
      (getResults cfg now net).2 = Except.ok ms →
      ms = rs.filterMap respExtract := by
  have hrun := getResults_run cfg now net hw hh hlim
  constructor
  · rw [hrun]
    show queueSpec cfg now = _
    unfold queueSpec
    rcases meridiem_cases now with hm | hm <;> simp [commuteDirection, hm]
  · intro rs ms h1 h2
    rw [hrun] at h1 h2
    have h1' : promiseAll ((queueSpec cfg now).map net) = Except.ok rs := h1
    have h2' : (promiseAll ((queueSpec cfg now).map net)) >>= processResponses =
        Except.ok ms := h2
    rw [h1', exceptBind_ok] at h2'
    simpa using foldlM_processStep_ok rs [] ms h2'

theorem fetch_query_order_witness :
    (getResults cfgEx 0 netGood).1 =
      cfgEx.locations.work.flatMap (fun workAddress =>
        cfgEx.locations.home.map (fun homeAddress =>
          if commuteDirection 0 == "home->work" then
            getDistanceRequest cfgEx homeAddress workAddress
          else
            getDistanceRequest cfgEx workAddress homeAddress)) ∧
    [measGood] = ([respGood] : List Response).filterMap respExtract :=
  ⟨(fetch_query_order cfgEx 0 netGood (by decide) (by decide) (by decide)).1,
   (fetch_query_order cfgEx 0 netGood (by decide) (by decide) (by decide)).2
     [respGood] [measGood] (by rfl) (by rfl)⟩

/-- C6: the run's direction is a pure function of the time-of-day at the
fixed offset UTC-4: it is unchanged by shifting the instant by whole days,
every instant strictly before noon (second-of-day 43200) yields
home->work, and every instant at or after noon yields work->home. -/
theorem direction_time_of_day (t : Nat) :
    commuteDirection t = commuteDirection (t % 86400) ∧
    (commuteDirection t = "home->work" ↔ localSecondsOfDay t < 43200) ∧
    (commuteDirection t = "work->home" ↔ 43200 ≤ localSecondsOfDay t) := by
  have hsec : localSecondsOfDay (t % 86400) = localSecondsOfDay t := by
    unfold localSecondsOfDay
    exact Nat.mod_add_mod t 86400 72000
  have hhour : localHour t < 12 ↔ localSecondsOfDay t < 43200 := by
    unfold localHour
    rw [Nat.div_lt_iff_lt_mul (by norm_num)]
  refine ⟨?_, ?_, ?_⟩
  · unfold commuteDirection meridiem localHour
    rw [hsec]
  · by_cases h : localSecondsOfDay t < 43200
    · simp [commuteDirection, meridiem, hhour.mpr h, h]
    · have hh' : ¬ localHour t < 12 := fun hc => h (hhour.mp hc)
      simp [commuteDirection, meridiem, hh', h]
  · by_cases h : localSecondsOfDay t < 43200
    · simp [commuteDirection, meridiem, hhour.mpr h, Nat.not_le.mpr h]
    · have hh' : ¬ localHour t < 12 := fun hc => h (hhour.mp hc)
      simp [commuteDirection, meridiem, hh', Nat.not_lt.mp h]

/-- A pointwise projection of an index-aware map depends only on the
index. -/
lemma mapIdx_proj {α β γ : Type} (l : List α) (f : Nat → α → β) (g : β → γ)
    (p : Nat → γ) (h : ∀ i a, g (f i a) = p i) :
    (l.mapIdx f).map g = (List.range l.length).map p := by
  rw [List.mapIdx_eq_enum_map, List.map_map]
  have hfun : (g ∘ Function.uncurry f) = (fun q : Nat × α => p q.1) := by
    funext q
    exact h q.1 q.2
  rw [hfun, show (fun q : Nat × α => p q.1) = p ∘ Prod.fst from rfl, ← List.map_map,
    List.enum_map_fst]

/-- C7: `writeResults` makes exactly one bulk-write call, keyed by the
configured table, carrying exactly one record per input measurement; the
record identifiers are the successive fresh outputs of the generator — all
distinct when the generator is injective, which the time-ordered `uuid/v1`
is — and every record carries the commute label matching the run's
direction. -/
theorem write_one_bulk_distinct_ids (results : List RouteMeasurement) (cfg : Config)
    (now : Nat) (gen : Nat → String) (fmt : LuxonFmt) (outcome : Except String Unit)
    (isL : Bool) (hgen : Function.Injective gen) :
    (writeResults results cfg now gen fmt outcome isL).calls.map BatchWriteCall.table =
      [cfg.aws.table] ∧
    ((writeResults results cfg now gen fmt outcome isL).calls.map
      (fun c => c.items.length)) = [results.length] ∧
    ((writeResults results cfg now gen fmt outcome isL).calls.map
      (fun c => c.items.map CommuteItem.uuid)) = [(List.range results.length).map gen] ∧
    ((List.range results.length).map gen).Nodup ∧
    ((writeResults results cfg now gen fmt outcome isL).calls.map
      (fun c => c.items.map CommuteItem.commute)) =
      [List.replicate results.length
        (if commuteDirection now == "home->work" then "home -> work" else "work -> home")] := by
  refine ⟨rfl, ?_, ?_, ?_, ?_⟩
  · show [(results.mapIdx _).length] = [results.length]
    rw [List.length_mapIdx]
  · show [(results.mapIdx _).map CommuteItem.uuid] = [(List.range results.length).map gen]
    rw [mapIdx_proj results _ CommuteItem.uuid gen (fun i a => rfl)]
  · exact (List.nodup_range results.length).map hgen
  · show [(results.mapIdx _).map CommuteItem.commute] = _
    rw [mapIdx_proj results _ CommuteItem.commute
      (fun _ => if meridiem now == "am" then "home -> work" else "work -> home")
      (fun i a => rfl)]
    rw [List.map_const', List.length_range]
    rcases meridiem_cases now with hm | hm <;> simp [commuteDirection, hm]

theorem write_one_bulk_distinct_ids_witness :
    (writeResults [measGood] cfgEx 0 genEx fmtEx (Except.ok ()) false).calls.map
      BatchWriteCall.table = [cfgEx.aws.table] ∧
    ((writeResults [measGood] cfgEx 0 genEx fmtEx (Except.ok ()) false).calls.map
      (fun c => c.items.length)) = [([measGood] : List RouteMeasurement).length] ∧
    ((writeResults [measGood] cfgEx 0 genEx fmtEx (Except.ok ()) false).calls.map
      (fun c => c.items.map CommuteItem.uuid)) =
      [(List.range ([measGood] : List RouteMeasurement).length).map genEx] ∧
    ((List.range ([measGood] : List RouteMeasurement).length).map genEx).Nodup ∧
    ((writeResults [measGood] cfgEx 0 genEx fmtEx (Except.ok ()) false).calls.map
      (fun c => c.items.map CommuteItem.commute)) =
      [List.replicate ([measGood] : List RouteMeasurement).length
        (if commuteDirection 0 == "home->work" then "home -> work" else "work -> home")] :=
  write_one_bulk_distinct_ids [measGood] cfgEx 0 genEx fmtEx (Except.ok ()) false
    genEx_injective

/-- C9: a bulk-write failure is logged and swallowed — the error callback
only logs, the function's behaviour is otherwise independent of the
backend outcome (the submitted call is identical), and on success it logs
a confirmation only outside the scheduled Lambda mode. -/
theorem write_swallows_failure (results : List RouteMeasurement) (cfg : Config)
    (now : Nat) (gen : Nat → String) (fmt : LuxonFmt) (e : String) (isL isL' : Bool) :
    (writeResults results cfg now gen fmt (Except.error e) isL).logs =
      ["Batch write error: " ++ e] ∧
    (writeResults results cfg now gen fmt (Except.ok ()) true).logs = [] ∧
    (writeResults results cfg now gen fmt (Except.ok ()) false).logs =
      ["Batch write was successful."] ∧
    (writeResults results cfg now gen fmt (Except.error e) isL).calls =
      (writeResults results cfg now gen fmt (Except.ok ()) isL').calls :=
  ⟨rfl, rfl, rfl, rfl⟩

/-- Distance request carrying exactly the parameter set the claim lists —
modelled from the spec's words ("query parameters `units=imperial`,
`mode=driving`, `key=<credential>`, `language=en-EN`,
`origins=<address, spaces to +>`, `destinations=<address, spaces to +>`"),
for comparison with the source's `getDistanceRequest`. -/
def claimedDistanceRequest (cfg : Config) (origin destination : String) : String :=
  GOOGLE_API_ENDPOINT ++ buildQueryParams
    [("units", "imperial"),
     ("mode", "driving"),
     ("key", cfg.google.key),
     ("language", "en-EN"),
     ("origins", plusEncode origin),
     ("destinations", plusEncode destination)]

set_option maxRecDepth 20000 in
/-- C8 counterexample: the URL the source builds is not the URL built from
the claim's parameter list — the source also sends `departure_time=now`
(line 34 of `src/traffic.js`), which the claim omits. -/
theorem query_params_counterexample :
    getDistanceRequest cfgEx "123 Main St" "1 Work Plaza" ≠
      claimedDistanceRequest cfgEx "123 Main St" "1 Work Plaza" := by
  decide

/-- C8 (amended): every outbound query is a GET to the fixed
distance-matrix endpoint with query parameters `units=imperial`,
`mode=driving`, `key=<credential>`, `language=en-EN`,
`departure_time=now`, and `origins`/`destinations` set to the caller's
address strings with every whitespace character replaced by `+`. -/
theorem query_params_amended (cfg : Config) (origin destination : String) :
    getDistanceRequest cfg origin destination =
      "https://maps.googleapis.com/maps/api/distancematrix/json?units=imperial&mode=driving&key="
        ++ cfg.google.key ++ "&language=en-EN&departure_time=now&origins="
        ++ plusEncode origin ++ "&destinations=" ++ plusEncode destination := by
  unfold getDistanceRequest buildQueryParams GOOGLE_API_ENDPOINT
  apply String.ext
  simp [List.foldl_cons, List.foldl_nil, String.data_append]

end TrafficSnoop
